import Mathlib

/-!
Verification of the AI-chat streaming pipeline of the AdWolf repository.

The embedded code is `handleSendMessage` (and the state it manipulates) from
the chat page component, together with the send guard of `ChatInput`
(`src/frontend/src/components/chat/chat-input.tsx`).  The embedding follows
the source statement by statement:

* `utf8Dec` models the browser's `TextDecoder` used with `stream: true`:
  a stateful UTF-8 decoder whose carry-over state is the trailing bytes of
  a not-yet-complete multi-byte sequence.  On valid UTF-8 input it agrees
  with the platform decoder; on invalid input it emits U+FFFD replacement
  characters (the exact number of replacement characters emitted for some
  invalid sequences is a simplification of the WHATWG algorithm, which the
  claims never exercise).
* `splitLines` models `buffer.split("\n")` followed by
  `buffer = lines.pop() || ""`: it returns the complete lines and the
  trailing segment after the last newline.
* `parseValue`/`parseJson` model `JSON.parse` on the payload of a
  `data: ` line (JSON values; object field extraction keeps the last
  duplicate key, as JavaScript does).  `parseFrame` extracts the
  string-valued fields the reducer reads (`type`, `content`, `tool_name`,
  `thread_id`, `message_id`); `tool_args` is parsed but never read by the
  reducer, exactly as in the source.
* `applyEvent` is the `switch (chunk.type)` statement.
* `handleSendMessage` is the whole handler: streaming guard, optimistic
  user message, HTTP status check, chunk loop, catch and finally blocks.

`Date.now()` is modelled by an explicit `t : Nat` parameter (the source
calls it once per constructed id; using a single logical timestamp for one
exchange does not affect any claim).  The `created_at` fields (wall-clock
strings) and the thread *list* refresh (`fetchThreads`, whose failures are
swallowed and which touches no conversation state) are not modelled.
-/

namespace AdWolf

/-! ## UTF-8 stateful decoder (model of `TextDecoder` with `stream: true`) -/

/-- Unicode replacement character emitted for invalid byte sequences. -/
def repl : Char := Char.ofNat 0xFFFD

/-- Is `b` a UTF-8 continuation byte (`10xxxxxx`)? -/
def cont (b : Nat) : Bool := 0x80 ≤ b && b < 0xC0

/-- Decode a two-byte sequence; overlong encodings give `repl`. -/
def dec2 (b b1 : Nat) : Char :=
  let v := (b - 0xC0) * 64 + (b1 - 0x80)
  if v < 0x80 then repl else Char.ofNat v

/-- Decode a three-byte sequence; overlong encodings and surrogates give `repl`. -/
def dec3 (b b1 b2 : Nat) : Char :=
  let v := (b - 0xE0) * 4096 + (b1 - 0x80) * 64 + (b2 - 0x80)
  if v < 0x800 || (0xD800 ≤ v && v < 0xE000) then repl else Char.ofNat v

/-- Decode a four-byte sequence; overlong and out-of-range values give `repl`. -/
def dec4 (b b1 b2 b3 : Nat) : Char :=
  let v := (b - 0xF0) * 262144 + (b1 - 0x80) * 4096 + (b2 - 0x80) * 64 + (b3 - 0x80)
  if v < 0x10000 || 0x10FFFF < v then repl else Char.ofNat v

/-- Outcome of one decoding step: either one character was decoded, consuming
at least one byte, or the whole remaining input is an incomplete multi-byte
sequence that becomes the decoder's carry-over state. -/
inductive DecStep : Type where
  | emit (c : Char) (rest : List Nat) : DecStep
  | pend (bs : List Nat) : DecStep
deriving DecidableEq

/-- One greedy decoding step at the head of the byte list. -/
def decodeStep : List Nat → DecStep
  | [] => .pend []
  | b :: bs =>
    if b < 0x80 then .emit (Char.ofNat b) bs
    else if b < 0xC0 then .emit repl bs
    else if b < 0xE0 then
      match bs with
      | [] => .pend [b]
      | b1 :: bs1 =>
        if cont b1 then .emit (dec2 b b1) bs1 else .emit repl (b1 :: bs1)
    else if b < 0xF0 then
      match bs with
      | [] => .pend [b]
      | b1 :: bs1 =>
        if cont b1 then
          match bs1 with
          | [] => .pend [b, b1]
          | b2 :: bs2 =>
            if cont b2 then .emit (dec3 b b1 b2) bs2 else .emit repl (b2 :: bs2)
        else .emit repl (b1 :: bs1)
    else if b < 0xF8 then
      match bs with
      | [] => .pend [b]
      | b1 :: bs1 =>
        if cont b1 then
          match bs1 with
          | [] => .pend [b, b1]
          | b2 :: bs2 =>
            if cont b2 then
              match bs2 with
              | [] => .pend [b, b1, b2]
              | b3 :: bs3 =>
                if cont b3 then .emit (dec4 b b1 b2 b3) bs3 else .emit repl (b3 :: bs3)
            else .emit repl (b2 :: bs2)
        else .emit repl (b1 :: bs1)
    else .emit repl bs

/-- Iterate `decodeStep`; the fuel only bounds the number of steps and is
irrelevant as soon as it is at least the number of bytes
(`utf8DecGo_fuel`). -/
def utf8DecGo : Nat → List Nat → List Char × List Nat
  | 0, bs => ([], bs)
  | fuel + 1, bs =>
    match decodeStep bs with
    | .emit c rest =>
      let r := utf8DecGo fuel rest
      (c :: r.1, r.2)
    | .pend p => ([], p)

/-- Greedy left-to-right UTF-8 decoding.  Returns the decoded characters and
the trailing bytes that could not be decoded because the input ended in the
middle of a multi-byte sequence (the decoder's carry-over state). -/
def utf8Dec (bs : List Nat) : List Char × List Nat :=
  utf8DecGo bs.length bs

/-- UTF-8 encoding of one character (used to build concrete byte payloads). -/
def encodeChar (c : Char) : List Nat :=
  let n := c.toNat
  if n < 0x80 then [n]
  else if n < 0x800 then [0xC0 + n / 64, 0x80 + n % 64]
  else if n < 0x10000 then
    [0xE0 + n / 4096, 0x80 + (n / 64) % 64, 0x80 + n % 64]
  else
    [0xF0 + n / 262144, 0x80 + (n / 4096) % 64, 0x80 + (n / 64) % 64, 0x80 + n % 64]

/-- UTF-8 encoding of a string as a list of bytes. -/
def utf8Encode (s : String) : List Nat :=
  (s.toList.map encodeChar).flatten

/-! ## Line splitting (model of `buffer.split("\n")` plus `lines.pop() || ""`) -/

/-- Split a character sequence at newlines: the first component is the list of
complete (newline-terminated) lines, the second is the trailing segment after
the last newline (the new value of `buffer` in the source). -/
def splitLines : List Char → List (List Char) × List Char
  | [] => ([], [])
  | c :: cs =>
    let r := splitLines cs
    if c = '\n' then ([] :: r.1, r.2)
    else
      match r.1 with
      | [] => ([], c :: r.2)
      | l :: ls => ((c :: l) :: ls, r.2)

/-! ## JSON parsing (model of `JSON.parse` on a frame payload) -/

/-- JSON values.  Number lexemes are kept verbatim (the reducer never reads a
numeric field, only string-valued ones). -/
inductive JVal : Type where
  | jnull : JVal
  | jbool (b : Bool) : JVal
  | jnum (lex : String) : JVal
  | jstr (s : String) : JVal
  | jarr (elems : List JVal) : JVal
  | jobj (members : List (String × JVal)) : JVal

/-- Skip JSON insignificant whitespace. -/
def skipWs : List Char → List Char
  | [] => []
  | c :: cs => if c = ' ' || c = '\t' || c = '\n' || c = '\r' then skipWs cs else c :: cs

/-- Value of a hexadecimal digit. -/
def hexVal (c : Char) : Option Nat :=
  if '0' ≤ c ∧ c ≤ '9' then some (c.toNat - 48)
  else if 'a' ≤ c ∧ c ≤ 'f' then some (c.toNat - 87)
  else if 'A' ≤ c ∧ c ≤ 'F' then some (c.toNat - 55)
  else none

/-- Parse the body of a JSON string (after the opening quote) up to and
including the closing quote.  Raw control characters are rejected, escape
sequences are decoded. -/
def parseStringBody : List Char → Option (List Char × List Char)
  | [] => none
  | c :: cs =>
    if c = '"' then some ([], cs)
    else if c = '\\' then
      match cs with
      | [] => none
      | e :: cs1 =>
        if e = '"' ∨ e = '\\' ∨ e = '/' then
          (parseStringBody cs1).map (fun r => (e :: r.1, r.2))
        else if e = 'b' then (parseStringBody cs1).map (fun r => ('\x08' :: r.1, r.2))
        else if e = 'f' then (parseStringBody cs1).map (fun r => ('\x0C' :: r.1, r.2))
        else if e = 'n' then (parseStringBody cs1).map (fun r => ('\n' :: r.1, r.2))
        else if e = 'r' then (parseStringBody cs1).map (fun r => ('\r' :: r.1, r.2))
        else if e = 't' then (parseStringBody cs1).map (fun r => ('\t' :: r.1, r.2))
        else if e = 'u' then
          match cs1 with
          | h1 :: h2 :: h3 :: h4 :: cs2 =>
            match hexVal h1, hexVal h2, hexVal h3, hexVal h4 with
            | some a, some b, some c2, some d =>
              (parseStringBody cs2).map
                (fun r => (Char.ofNat (a * 4096 + b * 256 + c2 * 16 + d) :: r.1, r.2))
            | _, _, _, _ => none
          | _ => none
        else none
    else if c.toNat < 32 then none
    else (parseStringBody cs).map (fun r => (c :: r.1, r.2))

/-- Take a maximal run of decimal digits. -/
def takeDigits : List Char → List Char × List Char
  | [] => ([], [])
  | c :: cs =>
    if c.isDigit then
      let r := takeDigits cs; (c :: r.1, r.2)
    else ([], c :: cs)

/-- Parse an optional JSON fraction part (`.` followed by digits). -/
def parseFrac : List Char → Option (List Char × List Char)
  | '.' :: r =>
    let d := takeDigits r
    if d.1 = [] then none else some ('.' :: d.1, d.2)
  | cs => some ([], cs)

/-- Parse an optional JSON exponent part (`e`/`E`, optional sign, digits). -/
def parseExp : List Char → Option (List Char × List Char)
  | [] => some ([], [])
  | c :: r =>
    if c = 'e' ∨ c = 'E' then
      let s : List Char × List Char :=
        match r with
        | '+' :: rr => (['+'], rr)
        | '-' :: rr => (['-'], rr)
        | _ => ([], r)
      let d := takeDigits s.2
      if d.1 = [] then none else some (c :: s.1 ++ d.1, d.2)
    else some ([], c :: r)

/-- Parse a JSON number lexeme (`-? (0 | [1-9][0-9]*) frac? exp?`). -/
def parseNumber (cs : List Char) : Option (List Char × List Char) :=
  let s : List Char × List Char :=
    match cs with
    | '-' :: r => (['-'], r)
    | _ => ([], cs)
  match s.2 with
  | [] => none
  | c :: r =>
    if c.isDigit then
      let ip : List Char × List Char := if c = '0' then ([], r) else takeDigits r
      match parseFrac ip.2 with
      | none => none
      | some fr =>
        match parseExp fr.2 with
        | none => none
        | some ex => some (s.1 ++ c :: ip.1 ++ fr.1 ++ ex.1, ex.2)
    else none

mutual

/-- Parse one JSON value; `fuel` bounds the nesting-recursion depth and is
instantiated generously by `parseJson`. -/
def parseValue : Nat → List Char → Option (JVal × List Char)
  | 0, _ => none
  | fuel + 1, cs =>
    match skipWs cs with
    | [] => none
    | c :: rest =>
      if c = '"' then
        match parseStringBody rest with
        | some (s, r) => some (.jstr ⟨s⟩, r)
        | none => none
      else if c = '\x7b' then
        match skipWs rest with
        | [] => none
        | c2 :: rest2 =>
          if c2 = '\x7d' then some (.jobj [], rest2)
          else
            match parseObjItems fuel (c2 :: rest2) with
            | some (ms, r) => some (.jobj ms, r)
            | none => none
      else if c = '[' then
        match skipWs rest with
        | [] => none
        | c2 :: rest2 =>
          if c2 = ']' then some (.jarr [], rest2)
          else
            match parseArrItems fuel (c2 :: rest2) with
            | some (vs, r) => some (.jarr vs, r)
            | none => none
      else if c = 't' then
        match rest with
        | 'r' :: 'u' :: 'e' :: r => some (.jbool true, r)
        | _ => none
      else if c = 'f' then
        match rest with
        | 'a' :: 'l' :: 's' :: 'e' :: r => some (.jbool false, r)
        | _ => none
      else if c = 'n' then
        match rest with
        | 'u' :: 'l' :: 'l' :: r => some (.jnull, r)
        | _ => none
      else
        match parseNumber (c :: rest) with
        | some (lex, r) => some (.jnum ⟨lex⟩, r)
        | none => none

/-- Parse the members of a JSON object after its opening brace (the first
member must start at the head of the input); consumes the closing brace. -/
def parseObjItems : Nat → List Char → Option (List (String × JVal) × List Char)
  | 0, _ => none
  | fuel + 1, cs =>
    match skipWs cs with
    | [] => none
    | c :: rest =>
      if c = '"' then
        match parseStringBody rest with
        | some (k, r1) =>
          match skipWs r1 with
          | ':' :: r2 =>
            match parseValue fuel r2 with
            | some (v, r3) =>
              match skipWs r3 with
              | ',' :: r4 =>
                match parseObjItems fuel r4 with
                | some (ms, r5) => some ((⟨k⟩, v) :: ms, r5)
                | none => none
              | '\x7d' :: r4 => some ([(⟨k⟩, v)], r4)
              | _ => none
            | none => none
          | _ => none
        | none => none
      else none

/-- Parse the elements of a JSON array after its opening bracket (the first
element must start at the head of the input); consumes the closing bracket. -/
def parseArrItems : Nat → List Char → Option (List JVal × List Char)
  | 0, _ => none
  | fuel + 1, cs =>
    match parseValue fuel cs with
    | some (v, r1) =>
      match skipWs r1 with
      | ',' :: r2 =>
        match parseArrItems fuel r2 with
        | some (vs, r3) => some (v :: vs, r3)
        | none => none
      | ']' :: r2 => some ([v], r2)
      | _ => none
    | none => none

end

/-- Model of `JSON.parse`: a complete JSON document, allowing surrounding
whitespace and nothing else after the value. -/
def parseJson (cs : List Char) : Option JVal :=
  match parseValue (2 * cs.length + 2) cs with
  | some (v, rest) => if skipWs rest = [] then some v else none
  | none => none

/-- Last-occurrence lookup of an object key, matching the JavaScript rule that
a duplicated key keeps its last value. -/
def lookupLast (k : String) : List (String × JVal) → Option JVal
  | [] => none
  | m :: ms =>
    match lookupLast k ms with
    | some v => some v
    | none => if m.1 = k then some m.2 else none

/-- Read a string-valued field of a parsed JSON value; any non-object value or
non-string field reads as absent (`undefined` in the source). -/
def getStr (v : JVal) (k : String) : Option String :=
  match v with
  | .jobj ms =>
    match lookupLast k ms with
    | some (.jstr s) => some s
    | _ => none
  | _ => none

/-! ## Data model (from `src/frontend/src/types/chat.ts` and the chat page) -/

/-- The fields of a `StreamChunk` frame that the reducer reads.  Every field is
optional, mirroring the TypeScript interface; `tool_args` is declared in the
source interface but never read by the `switch`, so it is not retained here. -/
structure StreamChunk : Type where
  type : Option String := none
  content : Option String := none
  tool_name : Option String := none
  thread_id : Option String := none
  message_id : Option String := none
deriving DecidableEq

/-- A chat message as stored in the `messages` state (the wall-clock
`created_at` string is not modelled). -/
structure ChatMessage : Type where
  id : String
  thread_id : String
  role : String
  content : String
deriving DecidableEq

/-- The React state of the chat page that `handleSendMessage` touches. -/
structure SessionState : Type where
  activeThreadId : Option String
  messages : List ChatMessage
  isStreaming : Bool
  streamingContent : String
  activeToolCall : Option String
deriving DecidableEq

/-- The state folded over parsed events: the React session state plus the two
locals of `handleSendMessage` (`fullContent` and `newThreadId`). -/
structure ReducerState : Type where
  session : SessionState
  fullContent : String
  newThreadId : Option String
deriving DecidableEq

/-- JavaScript truthiness of an optional string (`undefined` and `""` are
falsy). -/
def truthy : Option String → Bool
  | none => false
  | some s => s != ""

/-- The `switch (chunk.type)` statement of `handleSendMessage`, applied to one
parsed frame.  `t` stands for `Date.now()`. -/
def applyEvent (t : Nat) (rs : ReducerState) (f : StreamChunk) : ReducerState :=
  if f.type = some "text_delta" then
    if truthy f.content then
      let fc := rs.fullContent ++ f.content.getD ""
      { rs with fullContent := fc, session := { rs.session with streamingContent := fc } }
    else rs
  else if f.type = some "tool_call" then
    { rs with session :=
        { rs.session with activeToolCall := if truthy f.tool_name then f.tool_name else none } }
  else if f.type = some "tool_result" then
    { rs with session := { rs.session with activeToolCall := none } }
  else if f.type = some "thread_created" then
    if truthy f.thread_id then
      { rs with newThreadId := f.thread_id,
                session := { rs.session with activeThreadId := f.thread_id } }
    else rs
  else if f.type = some "done" then
    let rs1 :=
      if rs.fullContent ≠ "" then
        { rs with session := { rs.session with messages := rs.session.messages ++
            [{ id := if truthy f.message_id then f.message_id.getD "" else "msg-" ++ toString t,
               thread_id := rs.newThreadId.getD "",
               role := "assistant",
               content := rs.fullContent }] } }
      else rs
    { rs1 with session := { rs1.session with streamingContent := "", activeToolCall := none } }
  else if f.type = some "error" then
    { rs with session := { rs.session with
        messages := rs.session.messages ++
          [{ id := "error-" ++ toString t,
             thread_id := rs.newThreadId.getD "",
             role := "assistant",
             content := "⚠️ " ++ (if truthy f.content then f.content.getD "" else "Bir hata oluştu") }],
        streamingContent := "" } }
  else rs

/-- Fold a list of frames through the reducer in arrival order. -/
def applyEvents (t : Nat) (rs : ReducerState) (fs : List StreamChunk) : ReducerState :=
  fs.foldl (applyEvent t) rs

/-! ## The frame-parsing loop -/

/-- The `data: ` framing marker. -/
def dataMarker : List Char := "data: ".toList

/-- Parse one complete line: lines without the `data: ` marker are protocol
noise and yield nothing; the payload after the marker goes through
`JSON.parse`, and a parse failure is swallowed (the line is skipped). -/
def lineFrame (l : List Char) : Option StreamChunk :=
  if dataMarker.isPrefixOf l then
    match parseJson (l.drop 6) with
    | some v =>
      some { type := getStr v "type", content := getStr v "content",
             tool_name := getStr v "tool_name", thread_id := getStr v "thread_id",
             message_id := getStr v "message_id" }
    | none => none
  else none

/-- The part of the in-flight state that complete lines act on: the reducer
state plus a trace of every frame that reached the `switch` (the "parsed
`StreamChunk` events" of the claims, in processing order). -/
structure SinkState : Type where
  red : ReducerState
  events : List StreamChunk
deriving DecidableEq

/-- Process one complete line of the stream. -/
def dispatchLine (t : Nat) (sk : SinkState) (l : List Char) : SinkState :=
  match lineFrame l with
  | some f => { red := applyEvent t sk.red f, events := sk.events ++ [f] }
  | none => sk

/-- The full in-flight state of one exchange: the line-level state, the
decoder's carry-over bytes, and the line buffer. -/
structure ExchangeState : Type where
  sink : SinkState
  pending : List Nat
  buffer : List Char
deriving DecidableEq

/-- Append decoded text to the line buffer, process every complete line, and
retain the segment after the last newline in the buffer. -/
def feedText (t : Nat) (ex : ExchangeState) (txt : List Char) : ExchangeState :=
  let p := splitLines (ex.buffer ++ txt)
  { sink := p.1.foldl (dispatchLine t) ex.sink, pending := ex.pending, buffer := p.2 }

/-- One iteration of the `while (true)` read loop: decode the byte chunk with
the stateful decoder, then feed the text to the line buffer. -/
def feedChunk (t : Nat) (ex : ExchangeState) (c : List Nat) : ExchangeState :=
  let d := utf8Dec (ex.pending ++ c)
  feedText t { ex with pending := d.2 } d.1

/-- The whole read loop over the byte chunks delivered by the transport. -/
def runChunks (t : Nat) (ex : ExchangeState) (chunks : List (List Nat)) : ExchangeState :=
  chunks.foldl (feedChunk t) ex

/-! ## The full handler -/

/-- The optimistic user message appended before the request is sent. -/
def mkUserMessage (s : SessionState) (messageText : String) (t : Nat) : ChatMessage :=
  { id := "temp-" ++ toString t, thread_id := s.activeThreadId.getD "",
    role := "user", content := messageText }

/-- Reducer state at the start of the stream: the optimistic user message has
been appended, streaming is on, buffer and indicator are cleared, and the
`newThreadId` local starts as the current `activeThreadId`. -/
def startReducer (s : SessionState) (messageText : String) (t : Nat) : ReducerState :=
  { session := { s with
                   messages := s.messages ++ [mkUserMessage s messageText t],
                   isStreaming := true, streamingContent := "", activeToolCall := none },
    fullContent := "", newThreadId := s.activeThreadId }

/-- Full exchange state at the start of the stream. -/
def startExchange (s : SessionState) (messageText : String) (t : Nat) : ExchangeState :=
  { sink := { red := startReducer s messageText t, events := [] }, pending := [], buffer := [] }

/-- `response.ok`: HTTP status in the 2xx range. -/
def respOk (status : Nat) : Bool := 200 ≤ status && status < 300

/-- Outcome of the `fetch` call: an HTTP response (whose body is a list of
byte chunks, relevant only when the status is 2xx) or a network failure
before any chunk is delivered. -/
inductive TransportResult : Type where
  | http (status : Nat) (statusText : String) (chunks : List (List Nat)) : TransportResult
  | netError (message : String) : TransportResult

/-- `err.message || "Bilinmeyen hata"`. -/
def errString (m : String) : String := if m = "" then "Bilinmeyen hata" else m

/-- The synthetic assistant message committed by the `catch` block. -/
def failMessage (origThread : Option String) (m : String) (t : Nat) : ChatMessage :=
  { id := "error-" ++ toString t, thread_id := origThread.getD "",
    role := "assistant", content := "⚠️ Mesaj gönderilemedi: " ++ errString m }

/-- The `finally` block: streaming off, tool indicator cleared. -/
def finalizeSession (sess : SessionState) : SessionState :=
  { sess with isStreaming := false, activeToolCall := none }

/-- The whole `handleSendMessage` handler: the `isStreaming` guard, the
optimistic update, the HTTP status check (a non-2xx status throws and is
handled by the `catch` block), the read loop, and the `catch`/`finally`
blocks.  The thread-list refresh after the loop touches no modelled state. -/
def handleSendMessage (s : SessionState) (messageText : String)
    (tr : TransportResult) (t : Nat) : SessionState :=
  if s.isStreaming then s
  else
    let ex0 := startExchange s messageText t
    match tr with
    | .netError m =>
      finalizeSession
        { ex0.sink.red.session with
          messages := ex0.sink.red.session.messages ++ [failMessage s.activeThreadId m t],
          streamingContent := "" }
    | .http status statusText chunks =>
      if respOk status then
        finalizeSession (runChunks t ex0 chunks).sink.red.session
      else
        finalizeSession
          { ex0.sink.red.session with
            messages := ex0.sink.red.session.messages ++
              [failMessage s.activeThreadId
                ("HTTP " ++ toString status ++ ": " ++ statusText) t],
            streamingContent := "" }

/-- The send guard of `ChatInput.handleSend`: returns the trimmed message
passed to `onSend`, or nothing when the guard fires. -/
def chatInputSend (message : String) (isLoading disabled : Bool) : Option String :=
  let trimmed := message.trim
  if trimmed = "" || isLoading || disabled then none else some trimmed

/-! ## Frame shapes and concrete fixtures used in the scenario theorems -/

/-- A `text_delta` frame carrying `c`. -/
def deltaFrame (c : String) : StreamChunk :=
  { type := some "text_delta", content := some c }

/-- A `done` frame with an optional server message id. -/
def doneFrame (mid : Option String) : StreamChunk :=
  { type := some "done", message_id := mid }

/-- An `error` frame with optional server-supplied text. -/
def errorFrame (oc : Option String) : StreamChunk :=
  { type := some "error", content := oc }

/-- A `tool_call` frame with an optional tool name. -/
def toolCallFrame (n : Option String) : StreamChunk :=
  { type := some "tool_call", tool_name := n }

/-- A `tool_result` frame (the reducer ignores any name it carries). -/
def toolResultFrame : StreamChunk :=
  { type := some "tool_result" }

/-- A `thread_created` frame with an optional thread id. -/
def threadCreatedFrame (tid : Option String) : StreamChunk :=
  { type := some "thread_created", thread_id := tid }

/-- An idle session whose thread id is already set to `"t0"`. -/
def sessionT0 : SessionState :=
  { activeThreadId := some "t0", messages := [], isStreaming := false,
    streamingContent := "", activeToolCall := none }

/-- An idle session with no thread yet. -/
def sessionEmpty : SessionState :=
  { activeThreadId := none, messages := [], isStreaming := false,
    streamingContent := "", activeToolCall := none }

/-- Reducer state of an exchange before any event, for an empty session. -/
def rsIdle : ReducerState :=
  { session := sessionEmpty, fullContent := "", newThreadId := none }

/-- Reducer state of an exchange before any event, with thread id `"t0"`
already adopted. -/
def rsT0 : ReducerState :=
  { session := sessionT0, fullContent := "", newThreadId := some "t0" }

/-! ## Helper lemmas: the decoder, the line splitter and the loop compose over
arbitrary chunk boundaries -/

/-- An emitted step consumes at least one byte. -/
theorem decodeStep_emit_length :
    ∀ (bs : List Nat) (c : Char) (rest : List Nat),
      decodeStep bs = .emit c rest → rest.length < bs.length := by
  intro bs c rest h
  rcases bs with _ | ⟨b, _ | ⟨b1, _ | ⟨b2, _ | ⟨b3, bs3⟩⟩⟩⟩ <;>
    · simp only [decodeStep] at h
      try split_ifs at h
      all_goals simp_all
      all_goals omega

/-- A pended step pends exactly the remaining input (it occurs only when the
input ends inside a multi-byte sequence). -/
theorem decodeStep_pend :
    ∀ (bs p : List Nat), decodeStep bs = .pend p → p = bs := by
  intro bs p h
  rcases bs with _ | ⟨b, _ | ⟨b1, _ | ⟨b2, _ | ⟨b3, bs3⟩⟩⟩⟩ <;>
    · simp only [decodeStep] at h
      try split_ifs at h
      all_goals simp_all

set_option maxHeartbeats 1000000 in
/-- The decision of an emitting step depends only on the consumed bytes, so
appending further input does not change it. -/
theorem decodeStep_append (y : List Nat) :
    ∀ (bs : List Nat) (c : Char) (rest : List Nat),
      decodeStep bs = .emit c rest → decodeStep (bs ++ y) = .emit c (rest ++ y) := by
  intro bs c rest
  rcases bs with _ | ⟨b, _ | ⟨b1, _ | ⟨b2, _ | ⟨b3, bs3⟩⟩⟩⟩
  · intro h
    simp [decodeStep] at h
  all_goals
    intro h
    simp only [decodeStep, List.cons_append, List.nil_append] at h ⊢
    try split_ifs at h ⊢
    all_goals simp_all
    all_goals (rcases h with ⟨h1, h2⟩; subst h2; simp)

/-- Any two sufficient fuels compute the same decoding. -/
theorem utf8DecGo_eq :
    ∀ (f1 f2 : Nat) (bs : List Nat), bs.length ≤ f1 → bs.length ≤ f2 →
      utf8DecGo f1 bs = utf8DecGo f2 bs := by
  intro f1
  induction f1 with
  | zero =>
    intro f2 bs h1 h2
    have hb : bs = [] := List.length_eq_zero.mp (Nat.le_zero.mp h1)
    subst hb
    cases f2 <;> simp [utf8DecGo, decodeStep]
  | succ f ih =>
    intro f2 bs h1 h2
    cases f2 with
    | zero =>
      have hb : bs = [] := List.length_eq_zero.mp (Nat.le_zero.mp h2)
      subst hb
      simp [utf8DecGo, decodeStep]
    | succ g =>
      cases hs : decodeStep bs with
      | emit c rest =>
        have hlt := decodeStep_emit_length bs c rest hs
        have hr : utf8DecGo f rest = utf8DecGo g rest :=
          ih g rest (by omega) (by omega)
        simp [utf8DecGo, hs, hr]
      | pend p =>
        simp [utf8DecGo, hs]

/-- Any sufficient fuel computes `utf8Dec`. -/
theorem utf8DecGo_fuel (f : Nat) (bs : List Nat) (h : bs.length ≤ f) :
    utf8DecGo f bs = utf8Dec bs :=
  utf8DecGo_eq f bs.length bs h (Nat.le_refl _)

/-- Unfold `utf8Dec` when the head step emits a character. -/
theorem utf8Dec_emit {bs : List Nat} {c : Char} {rest : List Nat}
    (h : decodeStep bs = .emit c rest) :
    utf8Dec bs = (c :: (utf8Dec rest).1, (utf8Dec rest).2) := by
  have hlt := decodeStep_emit_length bs c rest h
  rcases hn : bs.length with _ | k
  · omega
  · have h0 : utf8Dec bs = utf8DecGo (k + 1) bs := by
      rw [utf8DecGo_fuel (k + 1) bs (by omega)]
    rw [h0]
    simp only [utf8DecGo, h]
    rw [utf8DecGo_fuel k rest (by omega)]

/-- Unfold `utf8Dec` when the input is an incomplete sequence. -/
theorem utf8Dec_pend {bs p : List Nat} (h : decodeStep bs = .pend p) :
    utf8Dec bs = ([], p) := by
  rcases hn : bs.length with _ | k
  · have hb : bs = [] := List.length_eq_zero.mp hn
    subst hb
    simp [decodeStep] at h
    simp [utf8Dec, utf8DecGo, ← h]
  · have h0 : utf8Dec bs = utf8DecGo (k + 1) bs := by
      rw [utf8DecGo_fuel (k + 1) bs (by omega)]
    rw [h0]
    simp only [utf8DecGo, h]

/-- Decoding `x ++ y` is decoding `x` and then resuming from the carry-over
state on `y`: the stateful decoder is insensitive to chunk boundaries, even
boundaries inside a multi-byte character. -/
theorem utf8Dec_append : ∀ (x y : List Nat),
    utf8Dec (x ++ y) = ((utf8Dec x).1 ++ (utf8Dec ((utf8Dec x).2 ++ y)).1,
                        (utf8Dec ((utf8Dec x).2 ++ y)).2)
  | x, y => by
    cases h : decodeStep x with
    | pend p =>
      have hp := decodeStep_pend x p h
      rw [utf8Dec_pend h]
      simp [hp]
    | emit c rest =>
      have hlt := decodeStep_emit_length x c rest h
      have hy := decodeStep_append y x c rest h
      rw [utf8Dec_emit h, utf8Dec_emit hy, utf8Dec_append rest y]
      simp
termination_by x _ => x.length

/-- Splitting `x ++ y` into lines is splitting `x` and then resuming from the
retained trailing segment on `y`. -/
theorem splitLines_append : ∀ (x y : List Char),
    splitLines (x ++ y) = ((splitLines x).1 ++ (splitLines ((splitLines x).2 ++ y)).1,
                           (splitLines ((splitLines x).2 ++ y)).2) := by
  intro x y
  induction x with
  | nil => simp [splitLines]
  | cons c cs ih =>
    by_cases hc : c = '\n'
    · simp [splitLines, hc, ih]
    · rcases hS : (splitLines cs).1 with _ | ⟨l, ls⟩ <;>
        simp [splitLines, hc, ih, hS]

/-- The events accumulated by the line loop are exactly the frames parsed from
the processed lines, in order. -/
theorem foldl_dispatch_events (t : Nat) :
    ∀ (ls : List (List Char)) (sk : SinkState),
      (ls.foldl (dispatchLine t) sk).events = sk.events ++ ls.filterMap lineFrame := by
  intro ls
  induction ls with
  | nil => intro sk; simp
  | cons l ls ih =>
    intro sk
    cases h : lineFrame l <;> simp [dispatchLine, h, ih]

/-- Feeding text twice is feeding the concatenation once. -/
theorem feedText_append (t : Nat) (ex : ExchangeState) (a b : List Char) :
    feedText t (feedText t ex a) b = feedText t ex (a ++ b) := by
  simp only [feedText]
  rw [← List.append_assoc, splitLines_append (ex.buffer ++ a) b]
  simp [List.foldl_append]

/-- Feeding two byte chunks is feeding the concatenated chunk once: one loop
iteration per chunk produces the same exchange state as a single iteration
over the joined bytes, for every state and every boundary. -/
theorem feedChunk_append (t : Nat) (ex : ExchangeState) (a b : List Nat) :
    feedChunk t (feedChunk t ex a) b = feedChunk t ex (a ++ b) := by
  simp only [feedChunk, feedText]
  rw [← List.append_assoc, utf8Dec_append (ex.pending ++ a) b,
    ← List.append_assoc ex.buffer,
    splitLines_append (ex.buffer ++ (utf8Dec (ex.pending ++ a)).1)]
  simp [List.foldl_append]

/-- A nonempty chunk list collapses to the single joined chunk. -/
theorem runChunks_eq_single (t : Nat) :
    ∀ (cs : List (List Nat)) (c : List Nat) (ex : ExchangeState),
      runChunks t ex (c :: cs) = feedChunk t ex (c ++ cs.flatten) := by
  intro cs
  induction cs with
  | nil => intro c ex; simp [runChunks]
  | cons c2 cs ih =>
    intro c ex
    have h1 : runChunks t ex (c :: c2 :: cs) = runChunks t (feedChunk t ex c) (c2 :: cs) := rfl
    rw [h1, ih, feedChunk_append]
    simp

/-- Feeding an empty chunk to a state with no carry-over bytes and an empty
line buffer changes nothing. -/
theorem feedChunk_nil (t : Nat) (ex : ExchangeState)
    (hp : ex.pending = []) (hb : ex.buffer = []) :
    feedChunk t ex [] = ex := by
  have hdec : utf8Dec ([] : List Nat) = ([], []) := utf8Dec_pend rfl
  rcases ex with ⟨sk, p, bf⟩
  simp_all [feedChunk, feedText, splitLines]

/-! ## Event-level unfolding lemmas for the reducer -/

/-- A `text_delta` frame appends its content to `fullContent` and mirrors it
into `streamingContent`, except that empty content is skipped. -/
theorem applyEvent_delta (t : Nat) (rs : ReducerState) (c : String) :
    applyEvent t rs (deltaFrame c) =
      if c = "" then rs
      else { rs with fullContent := rs.fullContent ++ c,
                     session := { rs.session with streamingContent := rs.fullContent ++ c } } := by
  by_cases hc : c = "" <;> simp [applyEvent, deltaFrame, truthy, hc]

/-- A `done` frame commits the accumulated content (when non-empty) and clears
the streaming buffer and the tool indicator. -/
theorem applyEvent_done (t : Nat) (rs : ReducerState) (mid : Option String) :
    applyEvent t rs (doneFrame mid) =
      let rs1 :=
        if rs.fullContent ≠ "" then
          { rs with session := { rs.session with messages := rs.session.messages ++
              [{ id := if truthy mid then mid.getD "" else "msg-" ++ toString t,
                 thread_id := rs.newThreadId.getD "",
                 role := "assistant",
                 content := rs.fullContent }] } }
        else rs
      { rs1 with session := { rs1.session with streamingContent := "", activeToolCall := none } } := by
  simp [applyEvent, doneFrame]

/-- An `error` frame commits a synthetic assistant message with the warning
marker and clears the streaming buffer. -/
theorem applyEvent_error (t : Nat) (rs : ReducerState) (oc : Option String) :
    applyEvent t rs (errorFrame oc) =
      { rs with session := { rs.session with
          messages := rs.session.messages ++
            [{ id := "error-" ++ toString t,
               thread_id := rs.newThreadId.getD "",
               role := "assistant",
               content := "⚠️ " ++ (if truthy oc then oc.getD "" else "Bir hata oluştu") }],
          streamingContent := "" } } := by
  simp [applyEvent, errorFrame]

/-- Folding a list of `text_delta` frames concatenates their contents onto
`fullContent` in arrival order (empty deltas contribute nothing), keeping
`streamingContent` in sync. -/
theorem applyEvents_deltas (t : Nat) :
    ∀ (cs : List String) (rs : ReducerState),
      rs.session.streamingContent = rs.fullContent →
      applyEvents t rs (cs.map deltaFrame) =
        { rs with fullContent := cs.foldl (fun a b => a ++ b) rs.fullContent,
                  session := { rs.session with
                    streamingContent := cs.foldl (fun a b => a ++ b) rs.fullContent } } := by
  intro cs
  induction cs with
  | nil =>
    intro rs h
    rcases rs with ⟨⟨a1, a2, a3, a4, a5⟩, fc, nt⟩
    simp_all [applyEvents]
  | cons c cs ih =>
    intro rs h
    by_cases hc : c = ""
    · have h1 : applyEvents t rs ((c :: cs).map deltaFrame)
          = applyEvents t (applyEvent t rs (deltaFrame c)) (cs.map deltaFrame) := rfl
      rw [h1, applyEvent_delta, if_pos hc, ih rs h, hc]
      simp [String.append_empty]
    · have h1 : applyEvents t rs ((c :: cs).map deltaFrame)
          = applyEvents t (applyEvent t rs (deltaFrame c)) (cs.map deltaFrame) := rfl
      rw [h1, applyEvent_delta, if_neg hc, ih _ (by simp)]
      simp

/-- A nonempty string stays nonempty under append. -/
theorem str_append_ne_empty (a b : String) (h : a ≠ "") : a ++ b ≠ "" := by
  intro hab
  apply h
  rcases a with ⟨la⟩
  rcases b with ⟨lb⟩
  simp only [String.ext_iff] at hab ⊢
  exact (by simpa using congrArg List.length hab : la = [] ∧ lb = []).1

/-- Splitting a newline-terminated line off the front: if `a` contains no
newline then `a ++ '\n' :: r` splits into the complete line `a` followed by
the lines of `r`. -/
theorem splitLines_line (a r : List Char) (h : '\n' ∉ a) :
    splitLines (a ++ '\n' :: r) = (a :: (splitLines r).1, (splitLines r).2) := by
  induction a with
  | nil => simp [splitLines]
  | cons c cs ih =>
    simp only [List.mem_cons, not_or] at h
    have hc : c ≠ '\n' := fun hh => h.1 hh.symm
    have hcs : '\n' ∉ cs := h.2
    simp [splitLines, hc, ih hcs]

/-! ## The claims -/

/-- Claim C1: for every byte payload and every way of splitting it into
chunks — including splits mid-line, mid-JSON and mid-UTF-8-codepoint — the
frame-parsing loop of `handleSendMessage` reaches exactly the same exchange
state (in particular the same ordered trace of parsed `StreamChunk` events)
as when the payload arrives as one single chunk; moreover after each feed
the segment after the last newline is retained in the buffer, and only the
complete lines contribute parsed events. -/
theorem c1_frame_reassembly (s : SessionState) (m : String) (t : Nat)
    (cs : List (List Nat)) :
    runChunks t (startExchange s m t) cs = runChunks t (startExchange s m t) [cs.flatten] ∧
    (∀ (ex : ExchangeState) (txt : List Char),
      (feedText t ex txt).buffer = (splitLines (ex.buffer ++ txt)).2 ∧
      (feedText t ex txt).sink.events
        = ex.sink.events ++ (splitLines (ex.buffer ++ txt)).1.filterMap lineFrame) := by
  constructor
  · cases cs with
    | nil =>
      have h0 : runChunks t (startExchange s m t) [List.flatten ([] : List (List Nat))]
          = feedChunk t (startExchange s m t) [] := rfl
      rw [h0, feedChunk_nil t _ rfl rfl]
      rfl
    | cons c cs =>
      rw [runChunks_eq_single]
      have h0 : runChunks t (startExchange s m t) [(c :: cs).flatten]
          = feedChunk t (startExchange s m t) ((c :: cs).flatten) := rfl
      rw [h0]
      simp
  · intro ex txt
    exact ⟨rfl, by simp [feedText, foldl_dispatch_events]⟩

/-- Claim C2, counterexample: starting an exchange with `activeThreadId`
already set to `"t0"` and receiving `thread_created(thread_id := "t1")`
*changes* the adopted thread id to `"t1"`, so the claim "receiving
`thread_created` when a thread id is already set does not change the adopted
id (first writer wins)" is false of the code. -/
theorem c2_thread_adoption_counterexample :
    (handleSendMessage sessionT0 "merhaba"
        (.http 200 "OK"
          [utf8Encode "data: \x7b\"type\":\"thread_created\",\"thread_id\":\"t1\"\x7d\n"])
        7).activeThreadId
      = some "t1" ∧ (some "t1" : Option String) ≠ some "t0" := by
  decide

/-- Claim C2, amended: thread adoption is last-writer-wins, not
first-writer-wins — every `thread_created` event carrying a non-empty thread
id overwrites both the exchange's `newThreadId` and the session's
`activeThreadId`, even when an id is already set; a `thread_created` whose
`thread_id` is absent or empty leaves the state unchanged. -/
theorem c2_thread_adoption_last_writer_wins (t : Nat) :
    (∀ (rs : ReducerState) (f : StreamChunk) (tid : String),
        f.type = some "thread_created" → f.thread_id = some tid → tid ≠ "" →
        (applyEvent t rs f).newThreadId = some tid ∧
        (applyEvent t rs f).session.activeThreadId = some tid) ∧
    (∀ (rs : ReducerState) (f : StreamChunk),
        f.type = some "thread_created" → truthy f.thread_id = false →
        applyEvent t rs f = rs) := by
  constructor
  · intro rs f tid h1 h2 h3
    simp [applyEvent, h1, h2, truthy, h3]
  · intro rs f h1 h2
    simp [applyEvent, h1, h2]

/-- Witness for the amended claim C2: with `"t0"` already adopted, a
`thread_created("t1")` event overwrites the id, and a `thread_created`
without an id changes nothing. -/
theorem c2_thread_adoption_last_writer_wins_witness :
    ((applyEvent 3 rsT0 (threadCreatedFrame (some "t1"))).newThreadId = some "t1" ∧
     (applyEvent 3 rsT0 (threadCreatedFrame (some "t1"))).session.activeThreadId = some "t1") ∧
    applyEvent 3 rsT0 (threadCreatedFrame none) = rsT0 :=
  ⟨(c2_thread_adoption_last_writer_wins 3).1 rsT0 _ "t1" rfl rfl (by decide),
   (c2_thread_adoption_last_writer_wins 3).2 rsT0 _ rfl rfl⟩

/-- Claim C3: for a stream of `text_delta` events with contents `cs` followed
by `done`, the assistant message committed on `done` has content exactly the
concatenation of `cs` in arrival order; if that concatenation is empty no
assistant message is committed; and after `done` the accumulation buffer
(`streamingContent`) and the active-tool indicator are cleared. -/
theorem c3_monotonic_accumulation (s : SessionState) (m : String) (t : Nat)
    (cs : List String) (mid : Option String) :
    (applyEvents t (startReducer s m t) (cs.map deltaFrame ++ [doneFrame mid])).session.messages
      = s.messages ++ [mkUserMessage s m t] ++
        (if cs.foldl (fun a b => a ++ b) "" = "" then []
         else [{ id := if truthy mid then mid.getD "" else "msg-" ++ toString t,
                 thread_id := s.activeThreadId.getD "",
                 role := "assistant",
                 content := cs.foldl (fun a b => a ++ b) "" }]) ∧
    (applyEvents t (startReducer s m t)
        (cs.map deltaFrame ++ [doneFrame mid])).session.streamingContent = "" ∧
    (applyEvents t (startReducer s m t)
        (cs.map deltaFrame ++ [doneFrame mid])).session.activeToolCall = none := by
  have hsplit : applyEvents t (startReducer s m t) (cs.map deltaFrame ++ [doneFrame mid])
      = applyEvent t (applyEvents t (startReducer s m t) (cs.map deltaFrame)) (doneFrame mid) := by
    simp [applyEvents, List.foldl_append]
  rw [hsplit, applyEvents_deltas t cs _ rfl, applyEvent_done]
  by_cases hF : cs.foldl (fun a b => a ++ b) "" = "" <;>
    simp [startReducer, hF]

/-- Claim C4: a stream made of a valid `data: ` line, then a `data: ` line
whose payload fails JSON parsing, then a valid `data: ` line, yields exactly
the two valid events in order — the malformed line is skipped without
aborting the stream, and later lines are still processed. -/
theorem c4_malformed_line_tolerance (t : Nat) (ex : ExchangeState)
    (l1 lbad l2 : List Char) (e1 e2 : StreamChunk)
    (hb : ex.buffer = [])
    (h1 : lineFrame l1 = some e1) (h2 : lineFrame l2 = some e2)
    (hbadp : dataMarker.isPrefixOf lbad = true)
    (hbadj : parseJson (lbad.drop 6) = none)
    (n1 : '\n' ∉ l1) (nb : '\n' ∉ lbad) (n2 : '\n' ∉ l2) :
    (feedText t ex (l1 ++ '\n' :: (lbad ++ '\n' :: (l2 ++ ['\n'])))).sink.events
      = ex.sink.events ++ [e1, e2] := by
  have hbad : lineFrame lbad = none := by
    simp [lineFrame, hbadp, hbadj]
  have hsplit : splitLines (l1 ++ '\n' :: (lbad ++ '\n' :: (l2 ++ ['\n'])))
      = ([l1, lbad, l2], []) := by
    rw [splitLines_line _ _ n1, splitLines_line _ _ nb]
    have he : l2 ++ ['\n'] = l2 ++ '\n' :: ([] : List Char) := rfl
    rw [he, splitLines_line _ _ n2]
    rfl
  simp only [feedText, hb, List.nil_append, hsplit, foldl_dispatch_events]
  simp [h1, h2, hbad]

/-- Witness for claim C4: a concrete malformed line between a `done` line and
a `tool_result` line yields exactly those two events. -/
theorem c4_malformed_line_tolerance_witness :
    (feedText 1 (startExchange sessionEmpty "q" 1)
        ("data: \x7b\"type\":\"done\"\x7d".toList ++ '\n' ::
          ("data: \x7bbad".toList ++ '\n' ::
            ("data: \x7b\"type\":\"tool_result\"\x7d".toList ++ ['\n'])))).sink.events
      = (startExchange sessionEmpty "q" 1).sink.events ++ [doneFrame none, toolResultFrame] :=
  c4_malformed_line_tolerance 1 (startExchange sessionEmpty "q" 1)
    "data: \x7b\"type\":\"done\"\x7d".toList "data: \x7bbad".toList
    "data: \x7b\"type\":\"tool_result\"\x7d".toList (doneFrame none) toolResultFrame
    rfl (by decide) (by decide) (by decide) (by rfl) (by decide) (by decide) (by decide)

/-- Claim C5: on the stream `[text_delta("Veri"), error("zaman aşımı")]` the
message list gains exactly one synthetic assistant message, whose content is
the warning marker plus `"zaman aşımı"` (or the generic fallback when the
error event carries no content), the streaming buffer is cleared, and no
assistant message with content `"Veri"` is ever committed. -/
theorem c5_mid_stream_error (s : SessionState) (m : String) (t : Nat) :
    (applyEvents t (startReducer s m t)
        [deltaFrame "Veri", errorFrame (some "zaman aşımı")]).session.messages
      = s.messages ++ [mkUserMessage s m t,
          { id := "error-" ++ toString t, thread_id := s.activeThreadId.getD "",
            role := "assistant", content := "⚠️ zaman aşımı" }] ∧
    (applyEvents t (startReducer s m t)
        [deltaFrame "Veri", errorFrame (some "zaman aşımı")]).session.streamingContent = "" ∧
    (applyEvents t (startReducer s m t)
        [deltaFrame "Veri", errorFrame none]).session.messages
      = s.messages ++ [mkUserMessage s m t,
          { id := "error-" ++ toString t, thread_id := s.activeThreadId.getD "",
            role := "assistant", content := "⚠️ Bir hata oluştu" }] ∧
    ((applyEvents t (startReducer s m t)
        [deltaFrame "Veri", errorFrame (some "zaman aşımı")]).session.messages.filter
          (fun msg => msg.role == "assistant" && msg.content == "Veri"))
      = s.messages.filter (fun msg => msg.role == "assistant" && msg.content == "Veri") := by
  have h1 : ∀ oc, applyEvents t (startReducer s m t) [deltaFrame "Veri", errorFrame oc]
      = applyEvent t (applyEvent t (startReducer s m t) (deltaFrame "Veri")) (errorFrame oc) :=
    fun oc => rfl
  refine ⟨?_, ?_, ?_, ?_⟩ <;>
    · rw [h1, applyEvent_delta]
      simp only [applyEvent_error]
      try simp [startReducer, truthy, mkUserMessage]

/-- Claim C6: on a non-2xx HTTP status, and likewise on a transport failure
before any chunk, `handleSendMessage` commits exactly one assistant message
built from the warning marker and the localized failure text, clears the
streaming buffer and the tool indicator, and leaves the session idle
(`isStreaming = false`), ready for a retry. -/
theorem c6_transport_failure (s : SessionState) (m : String) (t : Nat)
    (status : Nat) (stext : String) (chunks : List (List Nat)) (em : String)
    (hs : s.isStreaming = false) (hst : respOk status = false) :
    handleSendMessage s m (.http status stext chunks) t
      = { s with
          messages := s.messages ++ [mkUserMessage s m t,
            failMessage s.activeThreadId ("HTTP " ++ toString status ++ ": " ++ stext) t],
          isStreaming := false, streamingContent := "", activeToolCall := none } ∧
    handleSendMessage s m (.netError em) t
      = { s with
          messages := s.messages ++ [mkUserMessage s m t, failMessage s.activeThreadId em t],
          isStreaming := false, streamingContent := "", activeToolCall := none } := by
  constructor <;>
    simp [handleSendMessage, hs, hst, startExchange, startReducer, finalizeSession]

/-- Witness for claim C6 at HTTP 500 and at a network failure. -/
theorem c6_transport_failure_witness :
    handleSendMessage sessionT0 "q" (.http 500 "Internal Server Error" []) 4
      = { sessionT0 with
          messages := sessionT0.messages ++ [mkUserMessage sessionT0 "q" 4,
            failMessage sessionT0.activeThreadId
              ("HTTP " ++ toString 500 ++ ": " ++ "Internal Server Error") 4],
          isStreaming := false, streamingContent := "", activeToolCall := none } ∧
    handleSendMessage sessionT0 "q" (.netError "Failed to fetch") 4
      = { sessionT0 with
          messages := sessionT0.messages ++ [mkUserMessage sessionT0 "q" 4,
            failMessage sessionT0.activeThreadId "Failed to fetch" 4],
          isStreaming := false, streamingContent := "", activeToolCall := none } :=
  c6_transport_failure sessionT0 "q" 4 500 "Internal Server Error" [] "Failed to fetch"
    rfl (by decide)

/-- Claim C7, counterexample: after a completed exchange (a `text_delta` then
`done` with server id `"m1"`), the final message list still contains the
optimistic user message under its client-generated temporary id
`"temp-" ++ toString 5` — the temporary id is never replaced, so the claim
that no message retains a temporary id after completion is false. -/
theorem c7_temp_id_counterexample :
    (handleSendMessage sessionEmpty "merhaba"
        (.http 200 "OK"
          [utf8Encode ("data: \x7b\"type\":\"text_delta\",\"content\":\"tamam\"\x7d\ndata: \x7b\"type\":\"done\",\"message_id\":\"m1\"\x7d\n")])
        5).messages.map (fun msg => msg.id)
      = [(mkUserMessage sessionEmpty "merhaba" 5).id, "m1"] ∧
    (mkUserMessage sessionEmpty "merhaba" 5).id = "temp-" ++ toString 5 := by
  decide

/-- Claim C7, amended: the optimistic user message keeps its client-generated
temporary id (`"temp-" ++ Date.now()`) in the message list after `done`; the
assistant message committed on `done` carries the server-assigned message id
when one is supplied; no id rewriting of the user message ever happens within
the exchange. -/
theorem c7_id_assignment (s : SessionState) (m : String) (t : Nat)
    (cs : List String) (mid : String)
    (hF : cs.foldl (fun a b => a ++ b) "" ≠ "") (hmid : mid ≠ "") :
    (applyEvents t (startReducer s m t)
        (cs.map deltaFrame ++ [doneFrame (some mid)])).session.messages
      = s.messages ++ [mkUserMessage s m t,
          { id := mid, thread_id := s.activeThreadId.getD "", role := "assistant",
            content := cs.foldl (fun a b => a ++ b) "" }] ∧
    (mkUserMessage s m t).id = "temp-" ++ toString t := by
  have hsplit : applyEvents t (startReducer s m t) (cs.map deltaFrame ++ [doneFrame (some mid)])
      = applyEvent t (applyEvents t (startReducer s m t) (cs.map deltaFrame))
          (doneFrame (some mid)) := by
    simp [applyEvents, List.foldl_append]
  rw [hsplit, applyEvents_deltas t cs _ rfl, applyEvent_done]
  simp [startReducer, hF, truthy, hmid, mkUserMessage]

/-- Witness for the amended claim C7 on a one-delta exchange. -/
theorem c7_id_assignment_witness :
    (applyEvents 5 (startReducer sessionEmpty "q" 5)
        (["x"].map deltaFrame ++ [doneFrame (some "m1")])).session.messages
      = sessionEmpty.messages ++ [mkUserMessage sessionEmpty "q" 5,
          { id := "m1", thread_id := sessionEmpty.activeThreadId.getD "", role := "assistant",
            content := ["x"].foldl (fun a b => a ++ b) "" }] ∧
    (mkUserMessage sessionEmpty "q" 5).id = "temp-" ++ toString 5 :=
  c7_id_assignment sessionEmpty "q" 5 ["x"] "m1" (by decide) (by decide)

/-- Claim C8: at most one send is in flight — while `isStreaming` is set,
`handleSendMessage` returns immediately with the session unchanged, and the
chat input's send guard never forwards a message while loading. -/
theorem c8_single_flight (s : SessionState) (m : String) (tr : TransportResult) (t : Nat)
    (h : s.isStreaming = true) :
    handleSendMessage s m tr t = s ∧
    (∀ (msg : String) (d : Bool), chatInputSend msg true d = none) := by
  refine ⟨by simp [handleSendMessage, h], ?_⟩
  intro msg d
  simp [chatInputSend]

/-- Witness for claim C8 on a concrete streaming session. -/
theorem c8_single_flight_witness :
    handleSendMessage { sessionT0 with isStreaming := true } "m" (.http 200 "OK" []) 1
        = { sessionT0 with isStreaming := true } ∧
    chatInputSend "x" true false = none :=
  ⟨(c8_single_flight { sessionT0 with isStreaming := true } "m" (.http 200 "OK" []) 1 rfl).1,
   (c8_single_flight { sessionT0 with isStreaming := true } "m" (.http 200 "OK" []) 1 rfl).2 "x" false⟩

/-- Claim C9: a `tool_call` event sets the active-tool indicator to the
event's tool name, a `tool_result` clears it regardless of any name it
carries, and a `text_delta` neither clears nor changes the indicator while
text accumulation continues. -/
theorem c9_tool_indicator (t : Nat) :
    (∀ (rs : ReducerState) (f : StreamChunk) (n : String),
        f.type = some "tool_call" → f.tool_name = some n → n ≠ "" →
        (applyEvent t rs f).session.activeToolCall = some n) ∧
    (∀ (rs : ReducerState) (f : StreamChunk),
        f.type = some "tool_result" →
        (applyEvent t rs f).session.activeToolCall = none) ∧
    (∀ (rs : ReducerState) (f : StreamChunk),
        f.type = some "text_delta" →
        (applyEvent t rs f).session.activeToolCall = rs.session.activeToolCall ∧
        (applyEvent t rs f).fullContent
          = rs.fullContent ++ (if truthy f.content then f.content.getD "" else "")) := by
  refine ⟨?_, ?_, ?_⟩
  · intro rs f n h1 h2 h3
    simp [applyEvent, h1, h2, truthy, h3]
  · intro rs f h1
    simp [applyEvent, h1]
  · intro rs f h1
    by_cases hc : truthy f.content <;>
      simp [applyEvent, h1, hc, String.append_empty]

/-- Witness for claim C9 on concrete tool-call, tool-result and delta
frames. -/
theorem c9_tool_indicator_witness :
    (applyEvent 1 rsIdle (toolCallFrame (some "get_campaign_list"))).session.activeToolCall
        = some "get_campaign_list" ∧
    (applyEvent 1 rsIdle toolResultFrame).session.activeToolCall = none ∧
    ((applyEvent 1 rsIdle (deltaFrame "abc")).session.activeToolCall
        = rsIdle.session.activeToolCall ∧
      (applyEvent 1 rsIdle (deltaFrame "abc")).fullContent
        = rsIdle.fullContent
          ++ (if truthy (deltaFrame "abc").content then (deltaFrame "abc").content.getD "" else "")) :=
  ⟨(c9_tool_indicator 1).1 rsIdle _ "get_campaign_list" rfl rfl (by decide),
   (c9_tool_indicator 1).2.1 rsIdle _ rfl,
   (c9_tool_indicator 1).2.2 rsIdle _ rfl⟩

/-- Claim C10: terminal events do not stop event processing — neither `done`
nor `error` resets the accumulation variable `fullContent`, so a stream such
as `[text_delta(c1), done, text_delta(c2), done]` commits a second assistant
message whose content is `c1 ++ c2`, and likewise after a mid-stream
`error`. -/
theorem c10_terminal_events_continue (s : SessionState) (m : String) (t : Nat)
    (c1 c2 : String) (h1 : c1 ≠ "") (h2 : c2 ≠ "") :
    (∀ (rs : ReducerState) (mid : Option String),
        (applyEvent t rs (doneFrame mid)).fullContent = rs.fullContent) ∧
    (∀ (rs : ReducerState) (oc : Option String),
        (applyEvent t rs (errorFrame oc)).fullContent = rs.fullContent) ∧
    (applyEvents t (startReducer s m t)
        [deltaFrame c1, doneFrame none, deltaFrame c2, doneFrame none]).session.messages
      = s.messages ++ [mkUserMessage s m t,
          { id := "msg-" ++ toString t, thread_id := s.activeThreadId.getD "",
            role := "assistant", content := c1 },
          { id := "msg-" ++ toString t, thread_id := s.activeThreadId.getD "",
            role := "assistant", content := c1 ++ c2 }] ∧
    (applyEvents t (startReducer s m t)
        [deltaFrame c1, errorFrame none, deltaFrame c2, doneFrame none]).session.messages
      = s.messages ++ [mkUserMessage s m t,
          { id := "error-" ++ toString t, thread_id := s.activeThreadId.getD "",
            role := "assistant", content := "⚠️ Bir hata oluştu" },
          { id := "msg-" ++ toString t, thread_id := s.activeThreadId.getD "",
            role := "assistant", content := c1 ++ c2 }] := by
  have hc12 : c1 ++ c2 ≠ "" := str_append_ne_empty c1 c2 h1
  refine ⟨?_, ?_, ?_, ?_⟩
  · intro rs mid
    rw [applyEvent_done]
    by_cases hF : rs.fullContent = "" <;> simp [hF]
  · intro rs oc
    rw [applyEvent_error]
  · simp [applyEvents, applyEvent_delta, applyEvent_done, startReducer, h1, h2, hc12, truthy,
      String.empty_append]
  · simp [applyEvents, applyEvent_delta, applyEvent_done, applyEvent_error, startReducer,
      h1, h2, hc12, truthy, String.empty_append]

/-- Witness for claim C10 with deltas `"a"` and `"b"`. -/
theorem c10_terminal_events_continue_witness :
    (applyEvent 1 rsIdle (doneFrame none)).fullContent = rsIdle.fullContent ∧
    (applyEvent 1 rsIdle (errorFrame none)).fullContent = rsIdle.fullContent ∧
    (applyEvents 1 (startReducer sessionEmpty "q" 1)
        [deltaFrame "a", doneFrame none, deltaFrame "b", doneFrame none]).session.messages
      = sessionEmpty.messages ++ [mkUserMessage sessionEmpty "q" 1,
          { id := "msg-" ++ toString 1, thread_id := sessionEmpty.activeThreadId.getD "",
            role := "assistant", content := "a" },
          { id := "msg-" ++ toString 1, thread_id := sessionEmpty.activeThreadId.getD "",
            role := "assistant", content := "a" ++ "b" }] ∧
    (applyEvents 1 (startReducer sessionEmpty "q" 1)
        [deltaFrame "a", errorFrame none, deltaFrame "b", doneFrame none]).session.messages
      = sessionEmpty.messages ++ [mkUserMessage sessionEmpty "q" 1,
          { id := "error-" ++ toString 1, thread_id := sessionEmpty.activeThreadId.getD "",
            role := "assistant", content := "⚠️ Bir hata oluştu" },
          { id := "msg-" ++ toString 1, thread_id := sessionEmpty.activeThreadId.getD "",
            role := "assistant", content := "a" ++ "b" }] :=
  ⟨(c10_terminal_events_continue sessionEmpty "q" 1 "a" "b" (by decide) (by decide)).1 rsIdle none,
   (c10_terminal_events_continue sessionEmpty "q" 1 "a" "b" (by decide) (by decide)).2.1 rsIdle none,
   (c10_terminal_events_continue sessionEmpty "q" 1 "a" "b" (by decide) (by decide)).2.2.1,
   (c10_terminal_events_continue sessionEmpty "q" 1 "a" "b" (by decide) (by decide)).2.2.2⟩


end AdWolf
